import Mathlib

/-!
Shallow embedding of the region-selection and tile-filtering pipeline of
download_bdortho.py, together with proofs of the behavioural claims about it.

Modelling conventions:
* A vector geometry is modelled as a closed axis-aligned rectangle with
  rational coordinates; the geometric intersection of two such rectangles is
  again a rectangle (possibly degenerate: a segment or a point when the
  rectangles only touch, matching the point/line slivers produced by
  `gpd.overlay` with `keep_geom_type=False`).
* A feature of a GeoDataFrame is a pair of an identifier attribute (the `NOM`
  column for tiles, the `code` column for departments) and a geometry.  A
  missing attribute value (read as `None`/`NaN` by the geometry loader) is
  modelled as `Option.none`; like the singleton `None`/`np.nan` object in
  Python sets, it compares equal to itself.
* A GeoDataFrame is a `Dataset`: a declared CRS (`none` when the file carries
  no CRS information) and a list of features.
* Reading a file from disk is external I/O: a function that in Python calls
  `gpd.read_file` or `open` receives here the result of that call as an
  `Except` value.  Likewise the actual reprojection arithmetic of
  `GeoDataFrame.to_crs` is performed by an external library, so the pipeline
  functions are parametrised by `reproj : String → String → Rect → Rect`
  (source CRS, target CRS, geometry); `to_crs` on a dataset with no declared
  CRS raises, which the embedding models as an `Except.error`.
* The flat tile directory is a `Finset String` of filenames; `os.remove` is
  `Finset.erase`, guarded by `os.path.exists` exactly as in the source.
* `gpd.overlay(left, right, how='intersection', keep_geom_type=kg)` returns
  one row per pair of features whose geometries have a non-empty
  intersection, carrying the left row's attributes and the intersection
  geometry; with `kg = true` the rows whose intersection geometry is not
  two-dimensional are dropped, with `kg = false` they are kept.
-/

namespace BDOrtho

/-- A closed axis-aligned rectangle with rational coordinates. -/
structure Rect where
  xmin : ℚ
  ymin : ℚ
  xmax : ℚ
  ymax : ℚ
deriving DecidableEq

/-- The rectangle is empty when one of the coordinate intervals is empty. -/
def Rect.isEmptyRect (r : Rect) : Bool :=
  decide (r.xmax < r.xmin ∨ r.ymax < r.ymin)

/-- Geometric intersection of two closed rectangles. -/
def Rect.inter (a b : Rect) : Rect :=
  ⟨max a.xmin b.xmin, max a.ymin b.ymin, min a.xmax b.xmax, min a.ymax b.ymax⟩

/-- The two rectangles share at least one point. -/
def Rect.intersects (a b : Rect) : Bool :=
  !(a.inter b).isEmptyRect

/-- Dimension of a non-empty rectangle: 2 for a proper rectangle, 1 for a
segment, 0 for a single point. -/
def Rect.dim (r : Rect) : Nat :=
  (if r.xmin < r.xmax then 1 else 0) + (if r.ymin < r.ymax then 1 else 0)

/-- One row of a GeoDataFrame: identifier attribute and geometry.  The
identifier is `none` when the attribute value is missing in the source file. -/
structure Feature where
  id : Option String
  geom : Rect
deriving DecidableEq

/-- A GeoDataFrame: declared CRS (`none` when undeclared) and features. -/
structure Dataset where
  crs : Option String
  features : List Feature
deriving DecidableEq

/-- How Python renders an identifier value into a filename with
`os.path.join(dir, f"\x7btile_id\x7d")`: a present string is itself, the
missing value (`None` as read by the loader) renders as the string `"None"`. -/
def pyStr : Option String → String
  | some s => s
  | none => "None"

/-- Model of `gpd.overlay(left, right, how='intersection',
keep_geom_type=kg)`: one output row per pair of input rows with non-empty
geometric intersection, keeping the left row's identifier attribute; when
`kg = true`, rows whose intersection geometry is degenerate (dimension below
2) are dropped, when `kg = false` they are kept. -/
def overlayIntersection (kg : Bool) (left right : Dataset) : List Feature :=
  left.features.flatMap (fun l =>
    right.features.filterMap (fun r =>
      let g := l.geom.inter r.geom
      if g.isEmptyRect then none
      else if kg && !(decide (g.dim = 2)) then none
      else some ⟨l.id, g⟩))

/-- Model of `df[col].unique()`: the distinct identifier attribute values of a
list of rows (a missing value is one of the distinct values, as in pandas). -/
def uniqueCol (rows : List Feature) : List (Option String) :=
  (rows.map Feature.id).dedup

/-- The message of the error raised by `GeoDataFrame.to_crs` on a dataset
with no declared CRS (the missing-CRS failure of the specification). -/
def missingCRSError : String :=
  "Cannot transform naive geometries.  Please set a crs on the object first."

/-- Model of the reprojection step
`if d.crs != 'EPSG:2154': d = d.to_crs('EPSG:2154')` (source lines 134 to 137
and 165 to 168).  When the declared CRS is already the target the dataset is
returned unchanged; when the CRS is undeclared, `to_crs` raises (modelled as
an error, the missing-CRS failure); otherwise every geometry is reprojected
with the external library function `reproj` and the CRS set to the target. -/
def normalize2154 (reproj : String → String → Rect → Rect) (d : Dataset) :
    Except String Dataset :=
  if d.crs = some "EPSG:2154" then .ok d
  else
    match d.crs with
    | none => .error missingCRSError
    | some c => .ok ⟨some "EPSG:2154",
        d.features.map (fun f => ⟨f.id, reproj c "EPSG:2154" f.geom⟩)⟩

/-- Model of the deletion loop (source lines 180 to 184): for each identifier
to remove, delete the corresponding file when it exists and log the deletion;
an absent file is skipped silently.  The state is the pair of the set of
files on disk and the accumulated deletion log. -/
def deleteTiles (toRemove : List (Option String)) (st : Finset String × List String) :
    Finset String × List String :=
  toRemove.foldl (fun st tid =>
    let f := pyStr tid
    if f ∈ st.1 then (st.1.erase f, st.2 ++ [f]) else st) st

/-- Which exit a run of one of the pipeline functions took. -/
inductive RunOutcome
  | readError
  | crsError
  | overlayError
  | ok
deriving DecidableEq

/-- Result of a run of `filter_tiles_by_intersection`: the exit taken, the
iterated `tiles_to_remove` collection (empty unless the run reached the
deletion loop), the files present in the tile directory afterwards, and the
per-deletion log messages. -/
structure FilterOutput where
  outcome : RunOutcome
  removed : List (Option String)
  files : Finset String
  log : List String
deriving DecidableEq

/-- Model of `filter_tiles_by_intersection(reference_shapefile,
tiles_shapefile, data_directory)` (source lines 149 to 184).  `refLoad` and
`tilesLoad` are the results of the two `gpd.read_file` calls; `overlayErr`
records whether the `gpd.overlay` call raised inside its `try` block;
`files` is the content of the tile directory.  The source reads both inputs
(returning on failure), reprojects the reference then the tiles to EPSG:2154
(an undeclared CRS raises, uncaught), computes the intersection overlay of
the tiles against the reference with `keep_geom_type=False` (returning on
failure), takes the distinct `NOM` values of the overlay result and of the
tile index, forms `tiles_to_remove` as their set difference, and deletes the
corresponding files that exist, logging each deletion. -/
def filter_tiles_by_intersection (reproj : String → String → Rect → Rect)
    (refLoad tilesLoad : Except String Dataset) (overlayErr : Bool)
    (files : Finset String) : FilterOutput :=
  match refLoad, tilesLoad with
  | .error _, _ => ⟨.readError, [], files, []⟩
  | .ok _, .error _ => ⟨.readError, [], files, []⟩
  | .ok reference0, .ok tiles0 =>
    match normalize2154 reproj reference0 with
    | .error _ => ⟨.crsError, [], files, []⟩
    | .ok reference =>
      match normalize2154 reproj tiles0 with
      | .error _ => ⟨.crsError, [], files, []⟩
      | .ok tiles =>
        if overlayErr then ⟨.overlayError, [], files, []⟩
        else
          let intersected_tile_ids := uniqueCol (overlayIntersection false tiles reference)
          let all_tiles := uniqueCol tiles.features
          let tiles_to_remove := all_tiles.filter (fun t => decide (t ∉ intersected_tile_ids))
          let st := deleteTiles tiles_to_remove (files, [])
          ⟨.ok, tiles_to_remove, st.1, st.2⟩

/-- Result of a run of `prepare_data_based_on_shapefiles`: the exit taken and
the distinct department codes of the overlay result; the source then calls
`download_data_from_csv` once per element of `codes`, so the number of
triggered downloads equals the length of `codes`. -/
structure PrepareOutput where
  outcome : RunOutcome
  codes : List (Option String)
deriving DecidableEq

/-- Model of `prepare_data_based_on_shapefiles(input_shapefile,
department_geojson, csv_filename)` (source lines 118 to 147).  `depsLoad` and
`inputLoad` are the results of the two `gpd.read_file` calls; `overlayErr`
records whether `gpd.overlay` raised.  The source reads the departments and
the input AOI (returning on failure), reprojects the departments then the
input to EPSG:2154 (an undeclared CRS raises, uncaught), computes the
intersection overlay of the departments against the AOI with
`keep_geom_type=False` (returning on failure), and iterates the distinct
`code` values of the overlay result, downloading each. -/
def prepare_data_based_on_shapefiles (reproj : String → String → Rect → Rect)
    (depsLoad inputLoad : Except String Dataset) (overlayErr : Bool) :
    PrepareOutput :=
  match depsLoad, inputLoad with
  | .error _, _ => ⟨.readError, []⟩
  | .ok _, .error _ => ⟨.readError, []⟩
  | .ok departments0, .ok input0 =>
    match normalize2154 reproj departments0 with
    | .error _ => ⟨.crsError, []⟩
    | .ok departments =>
      match normalize2154 reproj input0 with
      | .error _ => ⟨.crsError, []⟩
      | .ok input_data =>
        if overlayErr then ⟨.overlayError, []⟩
        else ⟨.ok, uniqueCol (overlayIntersection false departments input_data)⟩

/-- One row of the link catalog CSV as produced by `csv.DictReader`. -/
structure CsvRow where
  code : String
  link : String
deriving DecidableEq

/-- Result of a run of `download_data_from_csv`: the exit taken, the links
collected for the requested region (each is then fetched in order), and the
set of directories existing afterwards. -/
structure DownloadOutput where
  outcome : RunOutcome
  links : List String
  dirs : Finset String
deriving DecidableEq

/-- Model of `download_data_from_csv(csv_path, region)` (source lines 65 to
91).  `csvLoad` is the result of opening and parsing the catalog CSV; a
`FileNotFoundError` makes the function log and return before touching the
filesystem.  Otherwise the source collects, in file order, the `Link` value
of every row whose `Code` equals `region` by exact string equality, creates
the directory `downloads/<region>` unconditionally, and fetches each
collected link. -/
def download_data_from_csv (csvLoad : Except String (List CsvRow))
    (region : String) (dirs : Finset String) : DownloadOutput :=
  match csvLoad with
  | .error _ => ⟨.readError, [], dirs⟩
  | .ok rows =>
    let links := rows.foldl
      (fun acc row => if row.code = region then acc ++ [row.link] else acc) []
    ⟨.ok, links, insert ("downloads/" ++ region) dirs⟩

/-- The identifier set of the whole tile index:
`set(tiles['NOM'].unique())` (source line 177). -/
def allIdsOf (tiles : Dataset) : Finset (Option String) :=
  (tiles.features.map Feature.id).toFinset

/-- The identifier set of the tiles with a non-empty intersection with the
reference AOI: `set(intersected_tiles['NOM'].unique())` (source lines 171 to
178); this is the `kept` set of the specification. -/
def keptIdsOf (tiles reference : Dataset) : Finset (Option String) :=
  (uniqueCol (overlayIntersection false tiles reference)).toFinset

lemma deleteTiles_nil (st : Finset String × List String) :
    deleteTiles [] st = st := rfl

lemma deleteTiles_cons (a : Option String) (l : List (Option String))
    (st : Finset String × List String) :
    deleteTiles (a :: l) st =
      deleteTiles l
        (if pyStr a ∈ st.1 then (st.1.erase (pyStr a), st.2 ++ [pyStr a]) else st) := by
  simp only [deleteTiles, List.foldl_cons]

/-- After the deletion loop, the files on disk are the initial files minus the
filenames of the identifiers to remove. -/
lemma deleteTiles_fst (l : List (Option String)) (files : Finset String)
    (log : List String) :
    (deleteTiles l (files, log)).1 = files \ (l.map pyStr).toFinset := by
  induction l generalizing files log with
  | nil => simp [deleteTiles_nil]
  | cons a l ih =>
    rw [deleteTiles_cons]
    by_cases h : pyStr a ∈ files
    · rw [if_pos h, ih]
      ext x
      by_cases hxf : x = pyStr a
      · subst hxf
        simp
      · simp only [Finset.mem_sdiff, Finset.mem_erase, List.map_cons,
          List.toFinset_cons, Finset.mem_insert, hxf, false_or]
        tauto
    · rw [if_neg h, ih]
      ext x
      by_cases hxf : x = pyStr a
      · subst hxf
        simp [h]
      · simp only [Finset.mem_sdiff, List.map_cons, List.toFinset_cons,
          Finset.mem_insert, hxf, false_or]
/-- The deletion log collects exactly those removed filenames that were
present on disk. -/
lemma deleteTiles_snd (l : List (Option String)) (files : Finset String)
    (log : List String) :
    (deleteTiles l (files, log)).2.toFinset =
      log.toFinset ∪ (files ∩ (l.map pyStr).toFinset) := by
  induction l generalizing files log with
  | nil => simp [deleteTiles_nil]
  | cons a l ih =>
    rw [deleteTiles_cons]
    by_cases h : pyStr a ∈ files
    · rw [if_pos h, ih]
      ext x
      by_cases hxf : x = pyStr a
      · subst hxf
        simp [h]
      · simp only [List.toFinset_append, List.toFinset_cons, List.map_cons,
          List.toFinset_nil, Finset.mem_union, Finset.mem_inter,
          Finset.mem_insert, Finset.mem_erase, Finset.not_mem_empty, hxf,
          false_or, or_false]
        tauto
    · rw [if_neg h, ih]
      ext x
      by_cases hxf : x = pyStr a
      · subst hxf
        simp [h]
      · simp only [List.map_cons, List.toFinset_cons, Finset.mem_union,
          Finset.mem_inter, Finset.mem_insert, hxf, false_or]

/-- Every identifier appearing in the overlay result is the identifier of
some row of the left input. -/
lemma mem_uniqueCol_overlay {t : Option String} {kg : Bool} {L R : Dataset}
    (h : t ∈ uniqueCol (overlayIntersection kg L R)) :
    t ∈ L.features.map Feature.id := by
  simp only [uniqueCol, List.mem_dedup, List.mem_map] at h
  obtain ⟨x, hx, hxid⟩ := h
  simp only [overlayIntersection, List.mem_flatMap, List.mem_filterMap] at hx
  obtain ⟨l, hl, r, _hr, hfr⟩ := hx
  split at hfr
  · exact absurd hfr (by simp)
  · split at hfr
    · exact absurd hfr (by simp)
    · simp only [Option.some.injEq] at hfr
      subst hfr
      exact List.mem_map.mpr ⟨l, hl, hxid⟩

/-- A pair of rows with a non-empty geometric intersection contributes the
left row's identifier to the overlay column when `keep_geom_type` is off,
whatever the dimension of the intersection geometry. -/
lemma id_mem_uniqueCol_overlay {L R : Dataset} {l r : Feature}
    (hl : l ∈ L.features) (hr : r ∈ R.features)
    (h : (l.geom.inter r.geom).isEmptyRect = false) :
    l.id ∈ uniqueCol (overlayIntersection false L R) := by
  simp only [uniqueCol, List.mem_dedup, List.mem_map]
  refine ⟨⟨l.id, l.geom.inter r.geom⟩, ?_, rfl⟩
  simp only [overlayIntersection, List.mem_flatMap, List.mem_filterMap]
  exact ⟨l, hl, r, hr, by simp [h]⟩

/-- The sliver row itself is part of the overlay result when
`keep_geom_type` is off. -/
lemma sliver_mem_overlay {L R : Dataset} {l r : Feature}
    (hl : l ∈ L.features) (hr : r ∈ R.features)
    (h : (l.geom.inter r.geom).isEmptyRect = false) :
    (⟨l.id, l.geom.inter r.geom⟩ : Feature) ∈ overlayIntersection false L R := by
  simp only [overlayIntersection, List.mem_flatMap, List.mem_filterMap]
  exact ⟨l, hl, r, hr, by simp [h]⟩

/-- A degenerate sliver row is dropped by the overlay when
`keep_geom_type` is on. -/
lemma sliver_not_mem_overlay_strict {L R : Dataset} {x : Feature}
    (h : x.geom.dim ≠ 2) :
    x ∉ overlayIntersection true L R := by
  intro hx
  simp only [overlayIntersection, List.mem_flatMap, List.mem_filterMap] at hx
  obtain ⟨l, _hl, r, _hr, hfr⟩ := hx
  split at hfr
  · exact absurd hfr (by simp)
  · split at hfr
    · exact absurd hfr (by simp)
    · rename_i hcond
      simp only [Option.some.injEq] at hfr
      simp only [Bool.true_and, Bool.not_eq_true', decide_eq_false_iff_not,
        Decidable.not_not] at hcond
      subst hfr
      exact h hcond

lemma mem_uniqueCol_iff (t : Option String) (rows : List Feature) :
    t ∈ uniqueCol rows ↔ t ∈ rows.map Feature.id := by
  simp [uniqueCol]

/-- Full analysis of overlay membership: every output row comes from a pair
of input rows with a non-empty geometric intersection and carries the left
row's identifier together with the intersection geometry. -/
lemma overlay_mem_elim {x : Feature} {kg : Bool} {L R : Dataset}
    (hx : x ∈ overlayIntersection kg L R) :
    ∃ l ∈ L.features, ∃ r ∈ R.features,
      (l.geom.inter r.geom).isEmptyRect = false ∧
      x = ⟨l.id, l.geom.inter r.geom⟩ := by
  simp only [overlayIntersection, List.mem_flatMap, List.mem_filterMap] at hx
  obtain ⟨l, hl, r, hr, hfr⟩ := hx
  refine ⟨l, hl, r, hr, ?_⟩
  split at hfr
  · exact absurd hfr (by simp)
  · rename_i hcond
    split at hfr
    · exact absurd hfr (by simp)
    · simp only [Option.some.injEq] at hfr
      simp only [Bool.not_eq_true] at hcond
      exact ⟨hcond, hfr.symm⟩

/-- The removed collection of a successful run: the distinct tile index
identifiers minus the distinct overlay identifiers
(`tiles_to_remove = all_tiles - set(intersected_tile_ids)`, source line 178). -/
def removedIdsList (tiles reference : Dataset) : List (Option String) :=
  (uniqueCol tiles.features).filter
    (fun t => decide (t ∉ uniqueCol (overlayIntersection false tiles reference)))

/-- Normalization only reprojects geometries: the identifier column is
unchanged. -/
lemma normalize2154_ids {reproj : String → String → Rect → Rect}
    {d nd : Dataset} (h : normalize2154 reproj d = .ok nd) :
    nd.features.map Feature.id = d.features.map Feature.id := by
  unfold normalize2154 at h
  split at h
  · cases h
    rfl
  · split at h
    · cases h
    · cases h
      simp

/-- Normalization preserves the identifier set of the tile index. -/
lemma allIdsOf_normalize {reproj : String → String → Rect → Rect}
    {d nd : Dataset} (h : normalize2154 reproj d = .ok nd) :
    allIdsOf nd = allIdsOf d := by
  unfold allIdsOf
  rw [normalize2154_ids h]

/-- Normalization of a feature-free dataset yields a feature-free dataset. -/
lemma normalize2154_features_nil {reproj : String → String → Rect → Rect}
    {d nd : Dataset} (h : normalize2154 reproj d = .ok nd)
    (hnil : d.features = []) : nd.features = [] := by
  have := normalize2154_ids h
  rw [hnil] at this
  simpa using List.map_eq_nil_iff.mp this

/-- Shape of a run of the tile filter in which both reads succeed, both
normalizations succeed and the overlay does not raise: it deletes the files
of `tiles_to_remove` and reports them. -/
lemma filter_ok_eq (reproj : String → String → Rect → Rect)
    {reference0 tiles0 nref ntiles : Dataset} (files : Finset String)
    (h1 : normalize2154 reproj reference0 = .ok nref)
    (h2 : normalize2154 reproj tiles0 = .ok ntiles) :
    filter_tiles_by_intersection reproj (.ok reference0) (.ok tiles0) false files =
      ⟨.ok, removedIdsList ntiles nref,
        (deleteTiles (removedIdsList ntiles nref) (files, [])).1,
        (deleteTiles (removedIdsList ntiles nref) (files, [])).2⟩ := by
  simp [filter_tiles_by_intersection, h1, h2, removedIdsList]

/-- Shape of a run of the region selector in which both reads succeed, both
normalizations succeed and the overlay does not raise. -/
lemma prepare_ok_eq (reproj : String → String → Rect → Rect)
    {departments0 input0 ndeps ninput : Dataset}
    (h1 : normalize2154 reproj departments0 = .ok ndeps)
    (h2 : normalize2154 reproj input0 = .ok ninput) :
    prepare_data_based_on_shapefiles reproj (.ok departments0) (.ok input0) false =
      ⟨.ok, uniqueCol (overlayIntersection false ndeps ninput)⟩ := by
  simp [prepare_data_based_on_shapefiles, h1, h2]

/-- The kept identifiers and the removed identifiers partition the full
identifier set of the tile index: their union is everything. -/
lemma kept_union_removed (tiles reference : Dataset) :
    keptIdsOf tiles reference ∪ (removedIdsList tiles reference).toFinset =
      allIdsOf tiles := by
  ext x
  constructor
  · intro hx
    rcases Finset.mem_union.mp hx with hx | hx
    · have hm := mem_uniqueCol_overlay (List.mem_toFinset.mp hx)
      exact List.mem_toFinset.mpr hm
    · have hm := (List.mem_filter.mp (List.mem_toFinset.mp hx)).1
      exact List.mem_toFinset.mpr ((mem_uniqueCol_iff x tiles.features).mp hm)
  · intro hx
    by_cases hk : x ∈ uniqueCol (overlayIntersection false tiles reference)
    · exact Finset.mem_union.mpr (Or.inl (List.mem_toFinset.mpr hk))
    · refine Finset.mem_union.mpr (Or.inr (List.mem_toFinset.mpr ?_))
      refine List.mem_filter.mpr ⟨?_, by simpa using hk⟩
      exact (mem_uniqueCol_iff x tiles.features).mpr (List.mem_toFinset.mp hx)

/-- The kept identifiers and the removed identifiers are disjoint. -/
lemma kept_inter_removed (tiles reference : Dataset) :
    keptIdsOf tiles reference ∩ (removedIdsList tiles reference).toFinset = ∅ := by
  ext x
  simp only [Finset.mem_inter, Finset.not_mem_empty, iff_false, not_and]
  intro hk hr
  have hcond := (List.mem_filter.mp (List.mem_toFinset.mp hr)).2
  simp only [decide_eq_true_eq] at hcond
  exact hcond (List.mem_toFinset.mp hk)

/-- An overlay over datasets whose geometries are pairwise disjoint (in
particular over an empty dataset) has no rows. -/
lemma overlay_eq_nil {kg : Bool} {L R : Dataset}
    (h : ∀ l ∈ L.features, ∀ r ∈ R.features,
      (l.geom.inter r.geom).isEmptyRect = true) :
    overlayIntersection kg L R = [] := by
  rw [List.eq_nil_iff_forall_not_mem]
  intro x hx
  obtain ⟨l, hl, r, hr, hne, _⟩ := overlay_mem_elim hx
  rw [h l hl r hr] at hne
  cases hne

/-- The identity stand-in for the external reprojection function; the
concrete witness datasets are already in the target CRS, so it is never
applied to their geometries. -/
def idReproj : String → String → Rect → Rect := fun _ _ r => r

/-- Witness tile index of the specification scenario: tile `t1` near the
origin and tile `t2` away from it. -/
def tilesW : Dataset :=
  ⟨some "EPSG:2154", [⟨some "t1", ⟨0, 0, 1, 1⟩⟩, ⟨some "t2", ⟨5, 5, 6, 6⟩⟩]⟩

/-- Witness AOI of the specification scenario, covering tile `t1` only. -/
def refW : Dataset := ⟨some "EPSG:2154", [⟨some "A", ⟨0, 0, 2, 2⟩⟩]⟩

/-- C1: for every run of the tile filter whose reads and normalizations
succeed and whose overlay does not raise, the kept identifiers (the distinct
tile identifiers appearing in a non-empty intersection with the AOI) and the
removed identifiers (the deletion candidates the run iterates) satisfy
`kept ∪ removed = allTiles` and `kept ∩ removed = ∅`, where `allTiles` is
the identifier set of the tile index. -/
theorem C1_kept_removed_partition (reproj : String → String → Rect → Rect)
    (reference0 tiles0 nref ntiles : Dataset) (files : Finset String)
    (h1 : normalize2154 reproj reference0 = .ok nref)
    (h2 : normalize2154 reproj tiles0 = .ok ntiles) :
    keptIdsOf ntiles nref ∪
        (filter_tiles_by_intersection reproj (.ok reference0) (.ok tiles0)
          false files).removed.toFinset = allIdsOf tiles0 ∧
    keptIdsOf ntiles nref ∩
        (filter_tiles_by_intersection reproj (.ok reference0) (.ok tiles0)
          false files).removed.toFinset = ∅ := by
  simp only [filter_ok_eq reproj files h1 h2]
  exact ⟨by rw [kept_union_removed, allIdsOf_normalize h2], kept_inter_removed _ _⟩

/-- Witness for C1 at the specification scenario datasets. -/
theorem C1_kept_removed_partition_witness :
    keptIdsOf tilesW refW ∪
        (filter_tiles_by_intersection idReproj (.ok refW) (.ok tilesW)
          false {"t1", "t2"}).removed.toFinset = allIdsOf tilesW ∧
    keptIdsOf tilesW refW ∩
        (filter_tiles_by_intersection idReproj (.ok refW) (.ok tilesW)
          false {"t1", "t2"}).removed.toFinset = ∅ :=
  C1_kept_removed_partition idReproj refW tilesW refW tilesW {"t1", "t2"} rfl rfl

/-- C2: when every tile record of the index carries an identifier value, a
run of the tile filter never deletes the file of a kept identifier, and the
files deleted by the run are exactly the logged ones. -/
theorem C2_kept_file_never_deleted (reproj : String → String → Rect → Rect)
    (reference0 tiles0 nref ntiles : Dataset) (files : Finset String) (s : String)
    (h1 : normalize2154 reproj reference0 = .ok nref)
    (h2 : normalize2154 reproj tiles0 = .ok ntiles)
    (hall : ∀ f ∈ tiles0.features, f.id ≠ none)
    (hk : some s ∈ keptIdsOf ntiles nref) :
    (s ∈ (filter_tiles_by_intersection reproj (.ok reference0) (.ok tiles0)
        false files).files ↔ s ∈ files) ∧
    files \ (filter_tiles_by_intersection reproj (.ok reference0) (.ok tiles0)
        false files).files =
      (filter_tiles_by_intersection reproj (.ok reference0) (.ok tiles0)
        false files).log.toFinset := by
  simp only [filter_ok_eq reproj files h1 h2]
  constructor
  · have hs : s ∉ ((removedIdsList ntiles nref).map pyStr).toFinset := by
      intro hmem
      obtain ⟨t, ht, hts⟩ := List.mem_map.mp (List.mem_toFinset.mp hmem)
      have h3 := List.mem_filter.mp ht
      have htall : t ∈ tiles0.features.map Feature.id := by
        have hm := (mem_uniqueCol_iff t ntiles.features).mp h3.1
        rwa [normalize2154_ids h2] at hm
      obtain ⟨f, hf, hfid⟩ := List.mem_map.mp htall
      rcases hu : t with _ | u
      · exact hall f hf (by rw [hfid, hu])
      · have hus : u = s := by rw [hu] at hts; exact hts
        have hnk := h3.2
        simp only [decide_eq_true_eq] at hnk
        rw [hu, hus] at hnk
        exact hnk (List.mem_toFinset.mp hk)
    rw [deleteTiles_fst]
    simp [Finset.mem_sdiff, hs]
  · rw [deleteTiles_fst, deleteTiles_snd]
    simp [Finset.sdiff_sdiff_self_left]

/-- Witness for C2: in the specification scenario, the file `t1` of the kept
identifier `t1` survives, and the single deletion (`t2`) is logged. -/
theorem C2_kept_file_never_deleted_witness :
    ("t1" ∈ (filter_tiles_by_intersection idReproj (.ok refW) (.ok tilesW)
        false {"t1", "t2"}).files ↔ "t1" ∈ ({"t1", "t2"} : Finset String)) ∧
    ({"t1", "t2"} : Finset String) \
        (filter_tiles_by_intersection idReproj (.ok refW) (.ok tilesW)
          false {"t1", "t2"}).files =
      (filter_tiles_by_intersection idReproj (.ok refW) (.ok tilesW)
        false {"t1", "t2"}).log.toFinset :=
  C2_kept_file_never_deleted idReproj refW tilesW refW tilesW {"t1", "t2"} "t1"
    rfl rfl (by decide) (by decide)

/-- C3: a second run of the tile filter on the already-pruned directory
(same tile index, same AOI) succeeds, reports the identical removed
collection, deletes nothing (the absent files are skipped without error) and
logs no deletion. -/
theorem C3_rerun_idempotent (reproj : String → String → Rect → Rect)
    (reference0 tiles0 nref ntiles : Dataset) (files : Finset String)
    (h1 : normalize2154 reproj reference0 = .ok nref)
    (h2 : normalize2154 reproj tiles0 = .ok ntiles) :
    (filter_tiles_by_intersection reproj (.ok reference0) (.ok tiles0)
      false files).outcome = .ok ∧
    (filter_tiles_by_intersection reproj (.ok reference0) (.ok tiles0) false
      (filter_tiles_by_intersection reproj (.ok reference0) (.ok tiles0)
        false files).files).outcome = .ok ∧
    (filter_tiles_by_intersection reproj (.ok reference0) (.ok tiles0) false
      (filter_tiles_by_intersection reproj (.ok reference0) (.ok tiles0)
        false files).files).removed =
      (filter_tiles_by_intersection reproj (.ok reference0) (.ok tiles0)
        false files).removed ∧
    (filter_tiles_by_intersection reproj (.ok reference0) (.ok tiles0) false
      (filter_tiles_by_intersection reproj (.ok reference0) (.ok tiles0)
        false files).files).files =
      (filter_tiles_by_intersection reproj (.ok reference0) (.ok tiles0)
        false files).files ∧
    (filter_tiles_by_intersection reproj (.ok reference0) (.ok tiles0) false
      (filter_tiles_by_intersection reproj (.ok reference0) (.ok tiles0)
        false files).files).log = [] := by
  have e1 := filter_ok_eq reproj files h1 h2
  simp only [e1]
  have e2 := filter_ok_eq reproj
    ((deleteTiles (removedIdsList ntiles nref) (files, [])).1) h1 h2
  simp only [e2]
  refine ⟨trivial, trivial, trivial, ?_, ?_⟩
  · rw [deleteTiles_fst (removedIdsList ntiles nref) files [],
      deleteTiles_fst, Finset.sdiff_idem]
  · rw [deleteTiles_fst (removedIdsList ntiles nref) files []]
    have hlog := deleteTiles_snd (removedIdsList ntiles nref)
      (files \ ((removedIdsList ntiles nref).map pyStr).toFinset) []
    rw [Finset.sdiff_inter_self] at hlog
    simp only [List.toFinset_nil, Finset.empty_union] at hlog
    exact (List.toFinset_eq_empty_iff _).mp hlog

/-- Witness for C3 at the specification scenario datasets. -/
theorem C3_rerun_idempotent_witness :
    (filter_tiles_by_intersection idReproj (.ok refW) (.ok tilesW)
      false {"t1", "t2"}).outcome = .ok ∧
    (filter_tiles_by_intersection idReproj (.ok refW) (.ok tilesW) false
      (filter_tiles_by_intersection idReproj (.ok refW) (.ok tilesW)
        false {"t1", "t2"}).files).outcome = .ok ∧
    (filter_tiles_by_intersection idReproj (.ok refW) (.ok tilesW) false
      (filter_tiles_by_intersection idReproj (.ok refW) (.ok tilesW)
        false {"t1", "t2"}).files).removed =
      (filter_tiles_by_intersection idReproj (.ok refW) (.ok tilesW)
        false {"t1", "t2"}).removed ∧
    (filter_tiles_by_intersection idReproj (.ok refW) (.ok tilesW) false
      (filter_tiles_by_intersection idReproj (.ok refW) (.ok tilesW)
        false {"t1", "t2"}).files).files =
      (filter_tiles_by_intersection idReproj (.ok refW) (.ok tilesW)
        false {"t1", "t2"}).files ∧
    (filter_tiles_by_intersection idReproj (.ok refW) (.ok tilesW) false
      (filter_tiles_by_intersection idReproj (.ok refW) (.ok tilesW)
        false {"t1", "t2"}).files).log = [] :=
  C3_rerun_idempotent idReproj refW tilesW refW tilesW {"t1", "t2"} rfl rfl

/-- C4: normalization to EPSG:2154 fails (with the missing-CRS error, never
by silently assuming a CRS) on a dataset with no declared CRS, and in that
case the region selector and the tile filter abort before any spatial
predicate with the tile directory untouched; a dataset whose declared CRS
differs from EPSG:2154 has every geometry reprojected by the external
reprojection function, with the CRS set to the target. -/
theorem C4_crs_normalization (reproj : String → String → Rect → Rect) :
    (∀ d : Dataset, d.crs = none →
      normalize2154 reproj d = .error missingCRSError) ∧
    (∀ (d : Dataset) (c : String), d.crs = some c → c ≠ "EPSG:2154" →
      normalize2154 reproj d =
        .ok ⟨some "EPSG:2154",
          d.features.map (fun f => ⟨f.id, reproj c "EPSG:2154" f.geom⟩)⟩) ∧
    (∀ (reference0 tiles0 : Dataset) (e : Bool) (files : Finset String),
      reference0.crs = none ∨ tiles0.crs = none →
      filter_tiles_by_intersection reproj (.ok reference0) (.ok tiles0) e files =
        ⟨.crsError, [], files, []⟩) ∧
    (∀ (departments0 input0 : Dataset) (e : Bool),
      departments0.crs = none ∨ input0.crs = none →
      prepare_data_based_on_shapefiles reproj (.ok departments0) (.ok input0) e =
        ⟨.crsError, []⟩) := by
  have hnone : ∀ d : Dataset, d.crs = none →
      normalize2154 reproj d = .error missingCRSError := by
    intro d hd
    simp [normalize2154, hd]
  refine ⟨hnone, ?_, ?_, ?_⟩
  · intro d c hd hne
    simp [normalize2154, hd, hne]
  · rintro r0 t0 e files (h | h)
    · simp [filter_tiles_by_intersection, hnone r0 h]
    · cases hr : normalize2154 reproj r0 with
      | error m => simp [filter_tiles_by_intersection, hr]
      | ok nr => simp [filter_tiles_by_intersection, hr, hnone t0 h]
  · rintro d0 i0 e (h | h)
    · simp [prepare_data_based_on_shapefiles, hnone d0 h]
    · cases hd : normalize2154 reproj d0 with
      | error m => simp [prepare_data_based_on_shapefiles, hd]
      | ok nd => simp [prepare_data_based_on_shapefiles, hd, hnone i0 h]

/-- A dataset with no declared CRS, used by the C4 witness. -/
def naiveW : Dataset := ⟨none, [⟨some "n", ⟨0, 0, 1, 1⟩⟩]⟩

/-- A dataset declared in a CRS that differs from the target, used by the C4
witness. -/
def wgs84W : Dataset := ⟨some "EPSG:4326", [⟨some "g", ⟨0, 0, 1, 1⟩⟩]⟩

/-- Witness for C4: the missing-CRS dataset makes normalization error and
makes both pipeline functions abort with the tile directory untouched, and
the EPSG:4326 dataset is reprojected. -/
theorem C4_crs_normalization_witness :
    normalize2154 idReproj naiveW = .error missingCRSError ∧
    normalize2154 idReproj wgs84W =
      .ok ⟨some "EPSG:2154",
        wgs84W.features.map
          (fun f => ⟨f.id, idReproj "EPSG:4326" "EPSG:2154" f.geom⟩)⟩ ∧
    filter_tiles_by_intersection idReproj (.ok refW) (.ok naiveW)
        false {"t1", "t2"} = ⟨.crsError, [], {"t1", "t2"}, []⟩ ∧
    prepare_data_based_on_shapefiles idReproj (.ok naiveW) (.ok refW)
        false = ⟨.crsError, []⟩ :=
  ⟨(C4_crs_normalization idReproj).1 naiveW rfl,
    (C4_crs_normalization idReproj).2.1 wgs84W "EPSG:4326" rfl (by decide),
    (C4_crs_normalization idReproj).2.2.1 refW naiveW false {"t1", "t2"}
      (Or.inr rfl),
    (C4_crs_normalization idReproj).2.2.2 naiveW refW false (Or.inl rfl)⟩

/-- C5: a run of the region selector whose reads and normalizations succeed
returns the empty identifier collection, with no error, whenever the
department dataset has no features, or the AOI dataset has no features, or
the AOI is disjoint from every department geometry; an empty codes
collection triggers zero downloads, since the driver performs one download
per element of `codes`. -/
theorem C5_no_match_empty (reproj : String → String → Rect → Rect)
    (departments0 input0 ndeps ninput : Dataset)
    (h1 : normalize2154 reproj departments0 = .ok ndeps)
    (h2 : normalize2154 reproj input0 = .ok ninput)
    (h : departments0.features = [] ∨ input0.features = [] ∨
      ∀ d ∈ ndeps.features, ∀ a ∈ ninput.features,
        (d.geom.inter a.geom).isEmptyRect = true) :
    prepare_data_based_on_shapefiles reproj (.ok departments0) (.ok input0)
      false = ⟨.ok, []⟩ := by
  rw [prepare_ok_eq reproj h1 h2]
  have hov : overlayIntersection false ndeps ninput = [] := by
    apply overlay_eq_nil
    rcases h with h | h | h
    · intro l hl
      rw [normalize2154_features_nil h1 h] at hl
      exact absurd hl (List.not_mem_nil l)
    · intro l hl r hr
      rw [normalize2154_features_nil h2 h] at hr
      exact absurd hr (List.not_mem_nil r)
    · exact h
  rw [hov]
  rfl

/-- A department dataset disjoint from the witness AOI `refW`, used by the
C5 witness. -/
def farDepsW : Dataset := ⟨some "EPSG:2154", [⟨some "99", ⟨100, 100, 110, 110⟩⟩]⟩

/-- Witness for C5: an AOI disjoint from the only department yields the
empty code collection without an error. -/
theorem C5_no_match_empty_witness :
    prepare_data_based_on_shapefiles idReproj (.ok farDepsW) (.ok refW)
      false = ⟨.ok, []⟩ :=
  C5_no_match_empty idReproj farDepsW refW farDepsW refW rfl rfl
    (Or.inr (Or.inr (by decide)))

/-- C6: the region selector runs the overlay with the relaxed geometry-type
policy: a department whose geometry meets the AOI in a non-empty but
degenerate intersection (a point or line sliver, sharing no area) still has
its identifier in the returned codes; the sliver row is accepted by the
relaxed overlay and would be rejected by the strict
(`keep_geom_type=True`) overlay. -/
theorem C6_boundary_sliver (reproj : String → String → Rect → Rect)
    (departments0 input0 ndeps ninput : Dataset) (d a : Feature)
    (h1 : normalize2154 reproj departments0 = .ok ndeps)
    (h2 : normalize2154 reproj input0 = .ok ninput)
    (hd : d ∈ ndeps.features) (ha : a ∈ ninput.features)
    (hne : (d.geom.inter a.geom).isEmptyRect = false)
    (hdim : (d.geom.inter a.geom).dim ≠ 2) :
    d.id ∈ (prepare_data_based_on_shapefiles reproj (.ok departments0)
        (.ok input0) false).codes ∧
    (⟨d.id, d.geom.inter a.geom⟩ : Feature) ∈
      overlayIntersection false ndeps ninput ∧
    (⟨d.id, d.geom.inter a.geom⟩ : Feature) ∉
      overlayIntersection true ndeps ninput := by
  refine ⟨?_, sliver_mem_overlay hd ha hne, sliver_not_mem_overlay_strict hdim⟩
  rw [prepare_ok_eq reproj h1 h2]
  exact id_mem_uniqueCol_overlay hd ha hne

/-- A department square, used by the C6 witness. -/
def deptW : Dataset := ⟨some "EPSG:2154", [⟨some "A", ⟨0, 0, 10, 10⟩⟩]⟩

/-- An AOI square that touches the witness department only along the line
`x = 10`, used by the C6 witness. -/
def touchW : Dataset := ⟨some "EPSG:2154", [⟨some "Z", ⟨10, 0, 20, 10⟩⟩]⟩

/-- Witness for C6: the AOI touching the department boundary without
covering any of its area still yields the department code `A`. -/
theorem C6_boundary_sliver_witness :
    (some "A" : Option String) ∈ (prepare_data_based_on_shapefiles idReproj
        (.ok deptW) (.ok touchW) false).codes ∧
    (⟨some "A", Rect.inter ⟨0, 0, 10, 10⟩ ⟨10, 0, 20, 10⟩⟩ : Feature) ∈
      overlayIntersection false deptW touchW ∧
    (⟨some "A", Rect.inter ⟨0, 0, 10, 10⟩ ⟨10, 0, 20, 10⟩⟩ : Feature) ∉
      overlayIntersection true deptW touchW :=
  C6_boundary_sliver idReproj deptW touchW deptW touchW
    ⟨some "A", ⟨0, 0, 10, 10⟩⟩ ⟨some "Z", ⟨10, 0, 20, 10⟩⟩ rfl rfl
    (by decide) (by decide) (by decide) (by decide)

/-- The link-collection loop of `download_data_from_csv` (source lines 70 to
72) collects, in order, the links of the rows whose code equals the region. -/
lemma download_links_eq (rows : List CsvRow) (region : String)
    (acc : List String) :
    rows.foldl (fun acc row =>
        if row.code = region then acc ++ [row.link] else acc) acc =
      acc ++ (rows.filter (fun row => decide (row.code = region))).map
        CsvRow.link := by
  induction rows generalizing acc with
  | nil => simp
  | cons r rows ih =>
    by_cases h : r.code = region
    · simp [List.foldl_cons, h, ih, List.filter_cons]
    · simp [List.foldl_cons, h, ih, List.filter_cons]

/-- C7: on a readable catalog, the links collected for a region are exactly
the `Link` values of the rows whose `Code` equals the region by exact string
equality, and a region matching zero rows yields the empty link list with
the ok outcome, not an error. -/
theorem C7_exact_catalog_lookup (rows : List CsvRow) (region : String)
    (dirs : Finset String) :
    (download_data_from_csv (.ok rows) region dirs).outcome = .ok ∧
    (∀ l : String,
      l ∈ (download_data_from_csv (.ok rows) region dirs).links ↔
        ∃ row ∈ rows, row.code = region ∧ row.link = l) ∧
    ((∀ row ∈ rows, row.code ≠ region) →
      (download_data_from_csv (.ok rows) region dirs).links = []) := by
  refine ⟨rfl, ?_, ?_⟩
  · intro l
    simp only [download_data_from_csv, download_links_eq, List.nil_append,
      List.mem_map, List.mem_filter, decide_eq_true_eq]
    constructor
    · rintro ⟨row, ⟨hrow, hcode⟩, hlink⟩
      exact ⟨row, hrow, hcode, hlink⟩
    · rintro ⟨row, hrow, hcode, hlink⟩
      exact ⟨row, ⟨hrow, hcode⟩, hlink⟩
  · intro hnone
    simp only [download_data_from_csv, download_links_eq, List.nil_append]
    rw [List.filter_eq_nil_iff.mpr (by simpa using hnone)]
    rfl

/-- The witness catalog: two rows for region 01 and one for region 02. -/
def catalogW : List CsvRow := [⟨"01", "a"⟩, ⟨"02", "b"⟩, ⟨"01", "c"⟩]

/-- Witness for C7: region 99 matches no catalog row and yields the empty
link list. -/
theorem C7_exact_catalog_lookup_witness :
    (download_data_from_csv (.ok catalogW) "99" ∅).links = [] :=
  (C7_exact_catalog_lookup catalogW "99" ∅).2.2 (by decide)

/-- C9: the tile filter is atomic with respect to the tile directory on
error: on every run whose outcome is not ok, the directory is unchanged,
nothing is reported removed and nothing is logged; a failed read of either
input exits with the read-error outcome, and an overlay failure prevents
the ok outcome. -/
theorem C9_error_paths_atomic (reproj : String → String → Rect → Rect)
    (refLoad tilesLoad : Except String Dataset) (e : Bool)
    (files : Finset String) :
    ((filter_tiles_by_intersection reproj refLoad tilesLoad e files).outcome
        ≠ .ok →
      (filter_tiles_by_intersection reproj refLoad tilesLoad e files).files
          = files ∧
      (filter_tiles_by_intersection reproj refLoad tilesLoad e files).removed
          = [] ∧
      (filter_tiles_by_intersection reproj refLoad tilesLoad e files).log
          = []) ∧
    (((∃ m, refLoad = .error m) ∨ (∃ m, tilesLoad = .error m)) →
      (filter_tiles_by_intersection reproj refLoad tilesLoad e files).outcome
        = .readError) ∧
    (e = true →
      (filter_tiles_by_intersection reproj refLoad tilesLoad e files).outcome
        ≠ .ok) := by
  rcases refLoad with m | r0
  · simp [filter_tiles_by_intersection]
  rcases tilesLoad with m | t0
  · simp [filter_tiles_by_intersection]
  cases hr : normalize2154 reproj r0 with
  | error msg => simp [filter_tiles_by_intersection, hr]
  | ok nr =>
    cases ht : normalize2154 reproj t0 with
    | error msg => simp [filter_tiles_by_intersection, hr, ht]
    | ok nt =>
      cases e
      · simp [filter_tiles_by_intersection, hr, ht]
      · simp [filter_tiles_by_intersection, hr, ht]

/-- Witness for C9: a failed read of the reference leaves the directory
untouched and exits with the read-error outcome. -/
theorem C9_error_paths_atomic_witness :
    (filter_tiles_by_intersection idReproj (.error "boom") (.ok tilesW)
        false {"t1", "t2"}).files = {"t1", "t2"} ∧
    (filter_tiles_by_intersection idReproj (.error "boom") (.ok tilesW)
        false {"t1", "t2"}).outcome = .readError :=
  ⟨((C9_error_paths_atomic idReproj (.error "boom") (.ok tilesW) false
      {"t1", "t2"}).1 (by decide)).1,
    (C9_error_paths_atomic idReproj (.error "boom") (.ok tilesW) false
      {"t1", "t2"}).2.1 (Or.inl ⟨"boom", rfl⟩)⟩

/-- C10: when the catalog CSV is unreadable, `download_data_from_csv`
returns before touching the filesystem (directories unchanged, no links);
when the catalog is readable it creates `downloads/<region>` whatever the
rows are, in particular also when zero rows match the region. -/
theorem C10_directory_frame_effect (region : String) (dirs : Finset String) :
    (∀ msg : String,
      download_data_from_csv (.error msg) region dirs =
        ⟨.readError, [], dirs⟩) ∧
    (∀ rows : List CsvRow,
      (download_data_from_csv (.ok rows) region dirs).dirs =
        insert ("downloads/" ++ region) dirs ∧
      ("downloads/" ++ region) ∈
        (download_data_from_csv (.ok rows) region dirs).dirs) := by
  refine ⟨fun msg => rfl, fun rows => ⟨rfl, ?_⟩⟩
  exact Finset.mem_insert_self _ _

/-- A tile index consisting of a single tile with no identifier attribute
value, away from the witness AOI `refW`. -/
def noIdTileW : Dataset := ⟨some "EPSG:2154", [⟨none, ⟨5, 5, 6, 6⟩⟩]⟩

/-- C8 counterexample: a tile record whose identifier attribute has no value
is NOT excluded from the removed collection: with a one-tile index whose
tile has a missing identifier and does not intersect the AOI, the missing
value lands in `tiles_to_remove`, and the file named after its string form
is deleted from the tile directory, with only the ordinary deletion log
entry (no data-quality warning exists in the code). -/
theorem C8_counterexample :
    (none : Option String) ∈ (filter_tiles_by_intersection idReproj (.ok refW)
        (.ok noIdTileW) false {"None"}).removed ∧
    "None" ∉ (filter_tiles_by_intersection idReproj (.ok refW)
        (.ok noIdTileW) false {"None"}).files ∧
    (filter_tiles_by_intersection idReproj (.ok refW) (.ok noIdTileW)
        false {"None"}).log = ["None"] := by decide

/-- C8 amended: a tile record whose identifier attribute has no value is
carried through like any other identifier: the missing value appears in the
identifier set of the index, and when no missing-identifier tile intersects
the AOI it is placed in the removed collection and the file named after its
string form does not survive the run; no warning is reported. -/
theorem C8_missing_id_participates (reproj : String → String → Rect → Rect)
    (reference0 tiles0 nref ntiles : Dataset) (files : Finset String)
    (t : Feature)
    (h1 : normalize2154 reproj reference0 = .ok nref)
    (h2 : normalize2154 reproj tiles0 = .ok ntiles)
    (ht : t ∈ tiles0.features) (htid : t.id = none)
    (hdisj : ∀ l ∈ ntiles.features, l.id = none → ∀ r ∈ nref.features,
      (l.geom.inter r.geom).isEmptyRect = true) :
    (none : Option String) ∈ allIdsOf tiles0 ∧
    (none : Option String) ∈ (filter_tiles_by_intersection reproj
        (.ok reference0) (.ok tiles0) false files).removed ∧
    "None" ∉ (filter_tiles_by_intersection reproj (.ok reference0)
        (.ok tiles0) false files).files := by
  have hremoved : (none : Option String) ∈ removedIdsList ntiles nref := by
    refine List.mem_filter.mpr ⟨?_, ?_⟩
    · refine (mem_uniqueCol_iff _ _).mpr ?_
      rw [normalize2154_ids h2]
      exact List.mem_map.mpr ⟨t, ht, htid⟩
    · simp only [decide_eq_true_eq]
      intro hmem
      obtain ⟨x, hx, hxid⟩ := List.mem_map.mp ((mem_uniqueCol_iff _ _).mp hmem)
      obtain ⟨l, hl, r, hr, hne, hxeq⟩ := overlay_mem_elim hx
      have hlid : l.id = none := by rw [hxeq] at hxid; exact hxid
      rw [hdisj l hl hlid r hr] at hne
      cases hne
  refine ⟨List.mem_toFinset.mpr (List.mem_map.mpr ⟨t, ht, htid⟩), ?_, ?_⟩
  · simp only [filter_ok_eq reproj files h1 h2]
    exact hremoved
  · simp only [filter_ok_eq reproj files h1 h2]
    rw [deleteTiles_fst]
    intro hmem
    rcases Finset.mem_sdiff.mp hmem with ⟨_, hnr⟩
    exact hnr (List.mem_toFinset.mpr (List.mem_map.mpr ⟨none, hremoved, rfl⟩))

/-- Witness for the amended C8 at the one-tile missing-identifier index. -/
theorem C8_missing_id_participates_witness :
    (none : Option String) ∈ allIdsOf noIdTileW ∧
    (none : Option String) ∈ (filter_tiles_by_intersection idReproj
        (.ok refW) (.ok noIdTileW) false {"None"}).removed ∧
    "None" ∉ (filter_tiles_by_intersection idReproj (.ok refW)
        (.ok noIdTileW) false {"None"}).files :=
  C8_missing_id_participates idReproj refW noIdTileW refW noIdTileW {"None"}
    ⟨none, ⟨5, 5, 6, 6⟩⟩ rfl rfl (by decide) rfl (by decide)

end BDOrtho
